import Mathlib

/-!
Shallow embedding of the change-detection / event-dispatch engine of
py-raildriver (`src/raildriver/events.py`, class `Listener`), together with the
parts of the provider surface (`src/raildriver/library.py`, class `RailDriver`)
that the listener consumes.

Modelling conventions:

* Python dicts become association lists over `String` keys; `dinsert` updates
  in place (keeping position) or appends, exactly like Python dict assignment,
  `derase` models `del d[k]` on the unique-keyed dicts Python produces, and
  `alookup` models `d[k]` / `d.get(k)` (via `pythonGet`, whose default is
  Python's `None`).
* Python runtime values flowing through the listener (floats, bools, tuples,
  `datetime.time`, `LocoInfo`, `None`) become the inductive `Value`; the
  listener only ever compares them with `!=` and passes them along, so scalars
  are carried as exact integers.
* Exceptions become the inductive `PyError`; `except ValueError` is modelled by
  the `PyError.isValueError` test.
* Callbacks are external code; a callback is modelled by its observable outcome
  on given `(newValue, oldValue)` arguments: `none` for a normal return, or
  `some e` for raising `e`.
* The background thread's loop body `Listener._main_loop` becomes `mainLoop`,
  driven by a finite schedule of per-iteration provider environments (the
  provider is mutable external state, so each iteration may see different
  values).  The `try/except Exception` wrapper is the `exc := some e` branch.
* Python attribute semantics matter here: `Listener.__getattr__` only fires
  for names with no instance attribute, `stop` assigns the instance attribute
  `running` (read by the loop), while `start` assigns `_running` and
  `subscribe` assigns `subscribed_fields` (neither of which the loop reads).
  The state therefore keeps the underscore fields of `__init__` and the two
  dynamically created attributes `running` / `subscribed_fields` separately.
-/

/-- A Python runtime value as seen by the listener: `vNone` is Python `None`,
`vNum` an exact numeric reading, `vBool` a boolean, `vPair` the coordinate
tuple, `vTime` a `datetime.time`, `vLoco` a `LocoInfo` record. -/
inductive Value where
  | vNone : Value
  | vNum : Int → Value
  | vBool : Bool → Value
  | vPair : Int → Int → Value
  | vTime : Nat → Nat → Nat → Value
  | vLoco : Option String → Option String → Option String → Value
deriving DecidableEq, Repr

/-- A Python exception as raised inside the listener machinery. -/
inductive PyError where
  | valueError : String → PyError
  | keyError : String → PyError
  | runtimeError : String → PyError
  | otherError : String → PyError
deriving DecidableEq, Repr

/-- Whether an exception is caught by `except ValueError`. -/
def PyError.isValueError : PyError → Bool
  | .valueError _ => true
  | _ => false

/-- A dispatched change event: the computed binding name together with the
`(new, old)` argument pair handed to the callbacks. -/
structure Event where
  name : String
  newVal : Value
  oldVal : Value
deriving DecidableEq, Repr

/-- A registered callback, modelled by its outcome on the dispatched
arguments: `none` = returns normally, `some e` = raises `e`. -/
abbrev Cb : Type := Value → Value → Option PyError

/-- A Python dict with string keys, as an insertion-ordered association list. -/
abbrev Dict : Type := List (String × Value)

/-- The binding registry `_bindings`: event name to ordered callback list. -/
abbrev Bindings : Type := List (String × List Cb)

/-- Association-list lookup: models `d[k]` presence and `d.get(k)`. -/
def alookup {α : Type} : List (String × α) → String → Option α
  | [], _ => none
  | (k, v) :: rest, key => if k = key then some v else alookup rest key

/-- Python dict assignment `d[k] = v`: update in place, else append. -/
def dinsert : Dict → String → Value → Dict
  | [], k, v => [(k, v)]
  | (k₀, v₀) :: rest, k, v =>
    if k₀ = k then (k₀, v) :: rest else (k₀, v₀) :: dinsert rest k v

/-- Python `del d[k]` on a dict (keys are unique in Python dicts, so removing
the first matching entry removes the key). -/
def derase : Dict → String → Dict
  | [], _ => []
  | (k₀, v₀) :: rest, k =>
    if k₀ = k then rest else (k₀, v₀) :: derase rest k

/-- Python `d.get(k)`: the stored value, or `None` when the key is absent. -/
def pythonGet (d : Dict) (k : String) : Value :=
  (alookup d k).getD .vNone

/-- Python `str.lower()`, character-wise (the controller and special field
names this code lowercases are ASCII). -/
def pyLower (t : String) : String :=
  String.mk (t.data.map Char.toLower)

/-- Python `field_name[1:]`: drop the leading marker character. -/
def specialTail (t : String) : String :=
  String.mk (t.data.drop 1)

/-- The event name computed for a plain field on line 78:
`f"on_{field_name.lower()}_change"`. -/
def plainBindingName (f : String) : String :=
  "on_" ++ pyLower f ++ "_change"

/-- The event name computed for a special field on line 85:
`f"on_{field_name[1:].lower()}_change"`. -/
def specialBindingName (f : String) : String :=
  "on_" ++ pyLower (specialTail f) ++ "_change"

/-- The key list of a dict is duplicate-free (true of every real Python dict). -/
def keysNodup (d : Dict) : Prop :=
  (d.map Prod.fst).Nodup

instance (d : Dict) : Decidable (keysNodup d) := by
  unfold keysNodup; infer_instance

/-- `defaultdict(list)` access `self._bindings[item]`: creates an empty
callback list for a fresh name (appended, Python dicts keep insertion order). -/
def defaultGet (bs : Bindings) (k : String) : Bindings :=
  if (alookup bs k).isSome then bs else bs ++ [(k, [])]

/-- Append a callback to the (defaultdict-created) list for an event name;
this is calling the bound `append` returned by `Listener.__getattr__`. -/
def appendCb : Bindings → String → Cb → Bindings
  | [], k, cb => [(k, [cb])]
  | (k₀, cbs) :: rest, k, cb =>
    if k₀ = k then (k₀, cbs ++ [cb]) :: rest else (k₀, cbs) :: appendCb rest k cb

/-- The slice of the `RailDriver` surface consumed by the listener:
`get_current_controller_value` (may raise), the special-field accessors
looked up by method name via `getattr` (may raise), and the controller
enumeration `dict(get_controller_list()).values()` used by `subscribe`. -/
structure Provider where
  readField : String → Except PyError Value
  special : String → Except PyError Value
  controllerList : List String

/-- The `Listener` instance state.  Underscore fields are those assigned in
`__init__` (note `_current_data` / `_previous_data` end up as plain dicts —
the `defaultdict` initialisations on lines 45–46 are overwritten on lines
53–54).  `runningAttr` is the instance attribute `running` created only by
`stop()`; `subscribedAttr` is the instance attribute `subscribed_fields`
created only by `subscribe()`.  While those attributes are absent (`none`),
reading them goes through `__getattr__`. -/
structure ListenerState where
  bindings : Bindings
  subscribedU : List String
  currentD : Dict
  previousD : Dict
  exc : Option PyError
  runningU : Bool
  iteration : Nat
  runningAttr : Option Bool
  subscribedAttr : Option (List String)

/-- The state right after `Listener.__init__`. -/
def initState : ListenerState :=
  { bindings := [], subscribedU := [], currentD := [], previousD := [],
    exc := none, runningU := false, iteration := 0,
    runningAttr := none, subscribedAttr := none }

/-- `Listener.__getattr__(item)` as a state effect: the `defaultdict` access
`self._bindings[item]` creates an empty list for a fresh `item`.  (The value
returned to Python is the list's bound `append`; registering through it is
`bindCallback`.) -/
def getattrRead (s : ListenerState) (item : String) : ListenerState :=
  { s with bindings := defaultGet s.bindings item }

/-- Registering a callback: `listener.on_xxx_change(cb)`, i.e. the attribute
read followed by calling the returned `append`. -/
def bindCallback (s : ListenerState) (item : String) (cb : Cb) : ListenerState :=
  { s with bindings := appendCb (defaultGet s.bindings item) item cb }

/-- Evaluating `self.running` in `_main_loop`: if `stop()` has created the
instance attribute, its boolean is read; otherwise `__getattr__` fires,
creating a `running` entry in `_bindings` and returning a bound method —
which is truthy. -/
def readRunningVal (s : ListenerState) : Bool × ListenerState :=
  match s.runningAttr with
  | some b => (b, s)
  | none => (true, { s with bindings := defaultGet s.bindings "running" })

/-- Run the callbacks registered for one event in order; the first raise
aborts (`Listener._execute_bindings`, loop body). -/
def runCbs : List Cb → Value → Value → Except PyError Unit
  | [], _, _ => .ok ()
  | cb :: rest, v, w =>
    match cb v w with
    | some e => .error e
    | none => runCbs rest v w

/-- `Listener._execute_bindings`: `self._bindings.get(type)` (which does not
create a defaultdict entry) is `None` exactly when the name is absent, in
which case a `RuntimeError` is raised; the error payload carries the
offending event name. -/
def executeBindings (bs : Bindings) (name : String) (v w : Value) :
    Except PyError Unit :=
  match alookup bs name with
  | none => .error (.runtimeError name)
  | some cbs => runCbs cbs v w

/-- `Listener.special_fields`, in dict-literal order: special field name to
accessor method name on the provider. -/
def specialFieldsList : List (String × String) :=
  [("!Coordinates", "coordinates"),
   ("!FuelLevel", "fuel_level"),
   ("!Gradient", "gradient"),
   ("!Heading", "heading"),
   ("!IsInTunnel", "in_tunnel"),
   ("!LocoName", "loco_name"),
   ("!Time", "current_time")]

/-- The plain-field half of `Listener._main_iteration` (lines 70–79): fold
over the subscribed names, threading `_current_data`, accumulating dispatched
events, aborting with the first uncaught exception.  Faithfully kept:
`del self._current_data[field_name]` raises `KeyError` when the key is
absent; `self._previous_data[field_name]` (the old value passed to dispatch)
raises `KeyError` when absent, and is evaluated before `_execute_bindings`
is entered. -/
def processPlain (p : Provider) (bs : Bindings) (iter : Nat) (prev : Dict) :
    List String → Dict → Dict × List Event × Option PyError
  | [], cur => (cur, [], none)
  | f :: rest, cur =>
    match p.readField f with
    | .error e =>
      if e.isValueError then
        if (alookup cur f).isSome then
          processPlain p bs iter prev rest (derase cur f)
        else (cur, [], some (.keyError f))
      else (cur, [], some e)
    | .ok v =>
      let cur' := dinsert cur f v
      if v ≠ pythonGet prev f ∧ iter > 1 then
        match alookup prev f with
        | none => (cur', [], some (.keyError f))
        | some old =>
          let bn := plainBindingName f
          match executeBindings bs bn v old with
          | .error e => (cur', [], some e)
          | .ok _ =>
            match processPlain p bs iter prev rest cur' with
            | (curF, evs, oe) => (curF, ⟨bn, v, old⟩ :: evs, oe)
      else processPlain p bs iter prev rest cur'

/-- The special-field half of `Listener._main_iteration` (lines 81–86):
every special field is read via its accessor each iteration; the binding
name drops the leading marker character (`field_name[1:].lower()`). -/
def processSpecial (p : Provider) (bs : Bindings) (iter : Nat) (prev : Dict) :
    List (String × String) → Dict → Dict × List Event × Option PyError
  | [], cur => (cur, [], none)
  | q :: rest, cur =>
    match p.special q.2 with
    | .error e => (cur, [], some e)
    | .ok v =>
      let cur' := dinsert cur q.1 v
      if v ≠ pythonGet prev q.1 ∧ iter > 1 then
        match alookup prev q.1 with
        | none => (cur', [], some (.keyError q.1))
        | some old =>
          let bn := specialBindingName q.1
          match executeBindings bs bn v old with
          | .error e => (cur', [], some e)
          | .ok _ =>
            match processSpecial p bs iter prev rest cur' with
            | (curF, evs, oe) => (curF, ⟨bn, v, old⟩ :: evs, oe)
      else processSpecial p bs iter prev rest cur'

/-- Result of one `_main_iteration`: the listener state, the events
dispatched in order, and the exception (if any) that escaped the iteration. -/
structure IterOut where
  state : ListenerState
  events : List Event
  error : Option PyError

/-- `Listener._main_iteration`: bump `_iteration`, set `_previous_data` to a
copy of `_current_data`, then the plain-field pass followed by the
special-field pass; an escaping exception leaves the partially updated
`_current_data` in place. -/
def mainIteration (p : Provider) (s : ListenerState) : IterOut :=
  let iter := s.iteration + 1
  let prev := s.currentD
  match processPlain p s.bindings iter prev s.subscribedU s.currentD with
  | (cur, evs, some e) =>
    ⟨{ s with iteration := iter, previousD := prev, currentD := cur }, evs, some e⟩
  | (cur, evs, none) =>
    match processSpecial p s.bindings iter prev specialFieldsList cur with
    | (cur₂, evs₂, oe) =>
      ⟨{ s with iteration := iter, previousD := prev, currentD := cur₂ },
       evs ++ evs₂, oe⟩

/-- Result of running the polling loop: final listener state and all events
dispatched, in order. -/
structure LoopOut where
  state : ListenerState
  events : List Event

/-- `Listener._main_loop`: `while self.running: _main_iteration(); sleep`,
the whole loop wrapped in `try/except Exception as exc: self._exc = exc`.
The loop is driven by a finite schedule of provider environments, one per
iteration (the external provider may change between polls); an exhausted
schedule simply truncates the observation.  An escaping exception is stored
in `_exc` and ends the loop; it is never re-raised. -/
def mainLoop : List Provider → ListenerState → LoopOut
  | [], s => ⟨s, []⟩
  | p :: rest, s =>
    match readRunningVal s with
    | (false, s₁) => ⟨s₁, []⟩
    | (true, s₁) =>
      match mainIteration p s₁ with
      | ⟨s₂, evs, some e⟩ => ⟨{ s₂ with exc := some e }, evs⟩
      | ⟨s₂, evs, none⟩ =>
        match mainLoop rest s₂ with
        | ⟨s₃, evs'⟩ => ⟨s₃, evs ++ evs'⟩

/-- `Listener.start`: sets `self._running = True` and spawns a thread running
`_main_loop` (the thread object itself is outside the model; the loop body is
`mainLoop`).  Note it touches neither `_iteration`, nor the snapshots, nor
the `running` instance attribute that `stop()` may have created. -/
def start (s : ListenerState) : ListenerState :=
  { s with runningU := true }

/-- `Listener.stop`: `self.running = False` creates/overwrites the instance
attribute `running` read by the loop condition. -/
def stop (s : ListenerState) : ListenerState :=
  { s with runningAttr := some false }

/-- `Listener.subscribe`: validate every requested name against
`dict(get_controller_list()).values()`, raising `ValueError` naming the
first missing controller; on success assign `self.subscribed_fields`
(which, being a distinct attribute from `_subscribed_fields`, leaves the
list polled by `_main_iteration` untouched). -/
def subscribe (p : Provider) (s : ListenerState) (fieldNames : List String) :
    Except PyError ListenerState :=
  match fieldNames.find? (fun f => !(p.controllerList.contains f)) with
  | some f => .error (.valueError f)
  | none => .ok { s with subscribedAttr := some fieldNames }

/-- Modelled from the spec: the repository stores a worker fault in the
`_exc` slot (`Listener._main_loop`) but ships no accessor for it; the spec's
public surface names `lastError() -> optional error` as the retrieval
operation, so it is modelled as reading that slot. -/
def lastError (s : ListenerState) : Option PyError :=
  s.exc

/-! ### Basic lemmas about the dict and registry operations -/

theorem alookup_eq_none_of_not_mem {α : Type} (d : List (String × α)) (k : String)
    (h : k ∉ d.map Prod.fst) : alookup d k = none := by
  induction d with
  | nil => rfl
  | cons q rest ih =>
    simp only [List.map_cons, List.mem_cons, not_or] at h
    cases q with
    | mk k₀ v₀ =>
      have hk : k₀ ≠ k := fun hh => h.1 (by simpa using hh.symm)
      simp only [alookup, if_neg hk]
      exact ih h.2

theorem alookup_append_right {α : Type} (bs : List (String × α)) (k : String) (x : α)
    (h : alookup bs k = none) : alookup (bs ++ [(k, x)]) k = some x := by
  induction bs with
  | nil => simp [alookup]
  | cons q rest ih =>
    cases q with
    | mk k₀ v₀ =>
      by_cases hk : k₀ = k
      · simp [alookup, hk] at h
      · simp only [alookup, if_neg hk] at h
        simp only [List.cons_append, alookup, if_neg hk]
        exact ih h

theorem alookup_dinsert_self (d : Dict) (k : String) (v : Value) :
    alookup (dinsert d k v) k = some v := by
  induction d with
  | nil => simp [dinsert, alookup]
  | cons q rest ih =>
    cases q with
    | mk k₀ v₀ =>
      by_cases hk : k₀ = k
      · simp [dinsert, alookup, hk]
      · simp only [dinsert, if_neg hk, alookup, if_neg hk]
        exact ih

theorem alookup_dinsert_ne (d : Dict) (k k' : String) (v : Value) (h : k' ≠ k) :
    alookup (dinsert d k v) k' = alookup d k' := by
  induction d with
  | nil =>
    simp only [dinsert, alookup]
    rw [if_neg fun hh : k = k' => h hh.symm]
  | cons q rest ih =>
    cases q with
    | mk k₀ v₀ =>
      by_cases hk : k₀ = k
      · subst hk
        simp only [dinsert, if_pos rfl, alookup,
          if_neg fun hh : k₀ = k' => h hh.symm]
      · simp only [dinsert, if_neg hk, alookup]
        by_cases hk' : k₀ = k'
        · simp only [if_pos hk']
        · simp only [if_neg hk']
          exact ih

theorem alookup_derase_self (d : Dict) (k : String) (h : keysNodup d) :
    alookup (derase d k) k = none := by
  induction d with
  | nil => rfl
  | cons q rest ih =>
    cases q with
    | mk k₀ v₀ =>
      simp only [keysNodup, List.map_cons, List.nodup_cons] at h
      by_cases hk : k₀ = k
      · subst hk
        simp only [derase, if_pos rfl]
        exact alookup_eq_none_of_not_mem rest k₀ h.1
      · simp only [derase, if_neg hk, alookup, if_neg hk]
        exact ih h.2

theorem alookup_derase_ne (d : Dict) (k k' : String) (h : k' ≠ k) :
    alookup (derase d k) k' = alookup d k' := by
  induction d with
  | nil => rfl
  | cons q rest ih =>
    cases q with
    | mk k₀ v₀ =>
      by_cases hk : k₀ = k
      · subst hk
        have h1 : derase ((k₀, v₀) :: rest) k₀ = rest := by simp [derase]
        rw [h1]
        simp only [alookup, if_neg fun hh : k₀ = k' => h hh.symm]
      · simp only [derase, if_neg hk, alookup]
        by_cases hk' : k₀ = k'
        · simp only [if_pos hk']
        · simp only [if_neg hk']
          exact ih

theorem runCbs_ok (cbs : List Cb) (v w : Value) (h : ∀ cb ∈ cbs, cb v w = none) :
    runCbs cbs v w = .ok () := by
  induction cbs with
  | nil => rfl
  | cons cb rest ih =>
    have hcb := h cb (List.mem_cons_self cb rest)
    simp only [runCbs, hcb]
    exact ih fun c hc => h c (List.mem_cons_of_mem cb hc)

theorem readRunningVal_id (s : ListenerState) (hra : s.runningAttr = none)
    (hrb : (alookup s.bindings "running").isSome) :
    readRunningVal s = (true, s) := by
  cases s with
  | mk b su cd pd ex ru it ra sa =>
    have hb : defaultGet b "running" = b := by
      unfold defaultGet
      rw [if_pos hrb]
    cases ra with
    | some bb => exact Option.noConfusion hra
    | none => simp [readRunningVal, hb]

/-! ### Step lemmas about the polling loop -/

theorem mainLoop_cons_ok (p : Provider) (rest : List Provider) (s s' : ListenerState)
    (evs : List Event) (hr : readRunningVal s = (true, s))
    (hi : mainIteration p s = ⟨s', evs, none⟩) :
    mainLoop (p :: rest) s
      = ⟨(mainLoop rest s').state, evs ++ (mainLoop rest s').events⟩ := by
  rcases hml : mainLoop rest s' with ⟨s₃, evs'⟩
  simp only [mainLoop, hr, hi, hml]

theorem mainLoop_cons_err (p : Provider) (rest : List Provider) (s s' : ListenerState)
    (evs : List Event) (e : PyError) (hr : readRunningVal s = (true, s))
    (hi : mainIteration p s = ⟨s', evs, some e⟩) :
    mainLoop (p :: rest) s = ⟨{ s' with exc := some e }, evs⟩ := by
  simp only [mainLoop, hr, hi]

theorem mainLoop_cons_stopped (p : Provider) (rest : List Provider) (s s₁ : ListenerState)
    (hr : readRunningVal s = (false, s₁)) :
    mainLoop (p :: rest) s = ⟨s₁, []⟩ := by
  simp only [mainLoop, hr]


/-! ### Lemmas about the two per-iteration passes -/

theorem processPlain_events_firstPass (p : Provider) (bs : Bindings) (iter : Nat)
    (prev : Dict) (h : iter ≤ 1) :
    ∀ (fs : List String) (cur : Dict),
      (processPlain p bs iter prev fs cur).2.1 = [] := by
  intro fs
  induction fs with
  | nil => intro cur; rfl
  | cons f rest ih =>
    intro cur
    unfold processPlain
    cases hrf : p.readField f with
    | error e =>
      dsimp only
      by_cases hv : e.isValueError = true
      · rw [if_pos hv]
        by_cases hs : (alookup cur f).isSome = true
        · rw [if_pos hs]
          exact ih _
        · rw [if_neg hs]
      · rw [if_neg hv]
    | ok v =>
      dsimp only
      have hng : ¬(v ≠ pythonGet prev f ∧ iter > 1) := by
        rintro ⟨_, hgt⟩
        omega
      rw [if_neg hng]
      exact ih _

theorem processSpecial_events_firstPass (p : Provider) (bs : Bindings) (iter : Nat)
    (prev : Dict) (h : iter ≤ 1) :
    ∀ (sfs : List (String × String)) (cur : Dict),
      (processSpecial p bs iter prev sfs cur).2.1 = [] := by
  intro sfs
  induction sfs with
  | nil => intro cur; rfl
  | cons q rest ih =>
    intro cur
    unfold processSpecial
    cases hrf : p.special q.2 with
    | error e => rfl
    | ok v =>
      dsimp only
      have hng : ¬(v ≠ pythonGet prev q.1 ∧ iter > 1) := by
        rintro ⟨_, hgt⟩
        omega
      rw [if_neg hng]
      exact ih _

theorem processPlain_iter_congr (p : Provider) (bs : Bindings) (prev : Dict)
    {it₁ it₂ : Nat} (h : it₁ > 1 ↔ it₂ > 1) :
    ∀ (fs : List String) (cur : Dict),
      processPlain p bs it₁ prev fs cur = processPlain p bs it₂ prev fs cur := by
  intro fs
  induction fs with
  | nil => intro cur; rfl
  | cons f rest ih =>
    intro cur
    unfold processPlain
    cases hrf : p.readField f with
    | error e =>
      dsimp only
      by_cases hv : e.isValueError = true
      · rw [if_pos hv, if_pos hv]
        by_cases hs : (alookup cur f).isSome = true
        · rw [if_pos hs, if_pos hs]
          exact ih _
        · rw [if_neg hs, if_neg hs]
      · rw [if_neg hv, if_neg hv]
    | ok v =>
      dsimp only
      by_cases hg : v ≠ pythonGet prev f
      · by_cases h1 : it₁ > 1
        · have h2 : it₂ > 1 := h.mp h1
          rw [if_pos ⟨hg, h1⟩, if_pos ⟨hg, h2⟩]
          cases halo : alookup prev f with
          | none => rfl
          | some old =>
            dsimp only
            cases heb : executeBindings bs (plainBindingName f) v old with
            | error e => rfl
            | ok u =>
              dsimp only
              rw [ih _]
        · have h2 : ¬it₂ > 1 := fun hh => h1 (h.mpr hh)
          rw [if_neg fun hh => h1 hh.2, if_neg fun hh => h2 hh.2]
          exact ih _
      · rw [if_neg fun hh => hg hh.1, if_neg fun hh => hg hh.1]
        exact ih _

theorem processSpecial_iter_congr (p : Provider) (bs : Bindings) (prev : Dict)
    {it₁ it₂ : Nat} (h : it₁ > 1 ↔ it₂ > 1) :
    ∀ (sfs : List (String × String)) (cur : Dict),
      processSpecial p bs it₁ prev sfs cur = processSpecial p bs it₂ prev sfs cur := by
  intro sfs
  induction sfs with
  | nil => intro cur; rfl
  | cons q rest ih =>
    intro cur
    unfold processSpecial
    cases hrf : p.special q.2 with
    | error e => rfl
    | ok v =>
      dsimp only
      by_cases hg : v ≠ pythonGet prev q.1
      · by_cases h1 : it₁ > 1
        · have h2 : it₂ > 1 := h.mp h1
          rw [if_pos ⟨hg, h1⟩, if_pos ⟨hg, h2⟩]
          cases halo : alookup prev q.1 with
          | none => rfl
          | some old =>
            dsimp only
            cases heb : executeBindings bs (specialBindingName q.1) v old with
            | error e => rfl
            | ok u =>
              dsimp only
              rw [ih _]
        · have h2 : ¬it₂ > 1 := fun hh => h1 (h.mpr hh)
          rw [if_neg fun hh => h1 hh.2, if_neg fun hh => h2 hh.2]
          exact ih _
      · rw [if_neg fun hh => hg hh.1, if_neg fun hh => hg hh.1]
        exact ih _

/-- The stores performed by a special-field pass in which every accessor
succeeds and nothing is dispatched. -/
def storeSpecials (p : Provider) : List (String × String) → Dict → Dict
  | [], cur => cur
  | q :: rest, cur =>
    match p.special q.2 with
    | .ok v => storeSpecials p rest (dinsert cur q.1 v)
    | .error _ => cur

theorem processSpecial_no_dispatch (p : Provider) (bs : Bindings) (iter : Nat)
    (prev : Dict) :
    ∀ (sfs : List (String × String)) (cur : Dict),
      (∀ q ∈ sfs, ∃ v, p.special q.2 = .ok v ∧ ¬(v ≠ pythonGet prev q.1 ∧ iter > 1)) →
      processSpecial p bs iter prev sfs cur = (storeSpecials p sfs cur, [], none) := by
  intro sfs
  induction sfs with
  | nil => intro cur _; rfl
  | cons q rest ih =>
    intro cur h
    obtain ⟨v, hok, hng⟩ := h q (List.mem_cons_self q rest)
    unfold processSpecial storeSpecials
    rw [hok]
    dsimp only
    rw [if_neg hng]
    exact ih _ fun r hr => h r (List.mem_cons_of_mem q hr)

theorem alookup_storeSpecials_not_mem (p : Provider) :
    ∀ (sfs : List (String × String)) (cur : Dict) (k : String),
      k ∉ sfs.map Prod.fst →
      alookup (storeSpecials p sfs cur) k = alookup cur k := by
  intro sfs
  induction sfs with
  | nil => intro cur k _; rfl
  | cons q rest ih =>
    intro cur k hk
    simp only [List.map_cons, List.mem_cons, not_or] at hk
    unfold storeSpecials
    cases hrf : p.special q.2 with
    | error e => rfl
    | ok v =>
      dsimp only
      rw [ih _ _ hk.2, alookup_dinsert_ne _ _ _ _ hk.1]

/-! ### Claim theorems -/

/-- C8: at the end of every `_main_iteration` — and hence at the start of the
next one — `_previous_data` is exactly the `_current_data` that stood when the
iteration began: `copy.copy(self._current_data)` produces a fresh dict, so the
stores and deletes the iteration subsequently performs on `_current_data`
never retroactively alter `_previous_data`; this holds on the normal path and
on every error path alike. -/
theorem previousData_is_prior_currentData (p : Provider) (s : ListenerState) :
    (mainIteration p s).state.previousD = s.currentD := by
  unfold mainIteration
  dsimp only
  rcases hpp : processPlain p s.bindings (s.iteration + 1) s.currentD
      s.subscribedU s.currentD with ⟨cur, evs, oe⟩
  cases oe with
  | some e => rfl
  | none => rfl

/-- C9: reading an otherwise-undefined attribute on the listener goes through
`__getattr__`, whose `defaultdict` access creates an empty callback list for
that name (even on a bare read with nothing appended); once that has
happened, `_execute_bindings` for that name finds the (empty) list and is a
silent no-op, whereas before the read it raises the no-binding
`RuntimeError`. -/
theorem getattr_read_creates_silent_binding (s : ListenerState) (item : String)
    (v w : Value) (habs : alookup s.bindings item = none) :
    alookup (getattrRead s item).bindings item = some []
    ∧ executeBindings (getattrRead s item).bindings item v w = .ok ()
    ∧ executeBindings s.bindings item v w = .error (.runtimeError item) := by
  have h1 : alookup (defaultGet s.bindings item) item = some [] := by
    unfold defaultGet
    rw [if_neg (by rw [habs]; simp)]
    exact alookup_append_right _ _ _ habs
  refine ⟨h1, ?_, ?_⟩
  · unfold executeBindings getattrRead
    dsimp only
    rw [h1]
    rfl
  · unfold executeBindings
    rw [habs]

/-- C9 witness: a concrete bare read on a fresh listener. -/
theorem getattr_read_creates_silent_binding_witness :
    alookup (getattrRead initState "on_reg_change").bindings "on_reg_change" = some []
    ∧ executeBindings (getattrRead initState "on_reg_change").bindings
        "on_reg_change" .vNone .vNone = .ok ()
    ∧ executeBindings initState.bindings "on_reg_change" .vNone .vNone
        = .error (.runtimeError "on_reg_change") :=
  getattr_read_creates_silent_binding initState "on_reg_change" .vNone .vNone rfl

/-- Provider fixture for the `subscribe` claim: the enumeration contains
exactly the controller `Regulator`. -/
def c4Provider : Provider :=
  { readField := fun f => .error (.valueError f),
    special := fun _ => .ok .vNone,
    controllerList := ["Regulator"] }

/-- C4: the validation half of `subscribe` behaves as claimed (an unknown
name fails with a `ValueError` naming it, and nothing changes), but the
success half stores the list into the attribute `subscribed_fields`, while
`_main_iteration` polls `_subscribed_fields` — so the set actually tracked
by the poller is NOT replaced: after a successful
`subscribe(["Regulator"])` on a fresh listener the polled set is still
`[]`. -/
theorem subscribe_does_not_update_polled_set :
    subscribe c4Provider initState ["Regulator"]
        = .ok { initState with subscribedAttr := some ["Regulator"] }
    ∧ ({ initState with subscribedAttr := some ["Regulator"] } : ListenerState).subscribedU
        = initState.subscribedU
    ∧ subscribe c4Provider initState ["NotAField"]
        = .error (.valueError "NotAField") :=
  ⟨rfl, rfl, rfl⟩

/-- A listener mid-run: three iterations done, a snapshot recorded. -/
def c5RunState : ListenerState :=
  { initState with
    iteration := 3,
    currentD := [("Regulator", .vNum 5)],
    previousD := [("Regulator", .vNum 5)] }

/-- C5 counterexample: after `stop(); stop(); start()` from a mid-run state,
the iteration counter has NOT been reset and the previous snapshot has NOT
been cleared — `start` touches neither. -/
theorem restart_does_not_reset_counter :
    (start (stop (stop c5RunState))).iteration ≠ 0
    ∧ (start (stop (stop c5RunState))).previousD ≠ [] :=
  ⟨by decide, by decide⟩

/-- C5 amended: a second `stop()` is a safe no-op (it rewrites the same
`running` attribute), and a subsequent `start()` sets `_running` but resets
neither the iteration counter nor the snapshots; moreover, because the loop
condition reads the `running` attribute that `stop()` left at `False`, the
restarted loop performs no iterations and dispatches no events at all. -/
theorem stop_twice_then_restart (s : ListenerState) :
    stop (stop s) = stop s
    ∧ (start (stop (stop s))).iteration = s.iteration
    ∧ (start (stop (stop s))).previousD = s.previousD
    ∧ (start (stop (stop s))).runningU = true
    ∧ ∀ provs : List Provider,
        mainLoop provs (start (stop (stop s))) = ⟨start (stop (stop s)), []⟩ := by
  refine ⟨rfl, rfl, rfl, rfl, ?_⟩
  intro provs
  cases provs with
  | nil => rfl
  | cons p rest => exact mainLoop_cons_stopped p rest _ _ rfl

/-- Provider fixture for the field-removal claim: every plain field read
raises `ValueError` (the controller is gone from the loco). -/
def c6Provider : Provider :=
  { readField := fun f => .error (.valueError f),
    special := fun _ => .ok .vNone,
    controllerList := [] }

/-- A mid-run listener subscribed to `Regulator` whose snapshot does not
contain it (the field was already dropped, or never yielded a value). -/
def c6State : ListenerState :=
  { initState with subscribedU := ["Regulator"], iteration := 5 }

/-- C6 counterexample: when the provider signals a subscribed field no longer
exists but the field has no entry in `_current_data`, the handler's
`del self._current_data[field_name]` raises `KeyError`, which escapes the
iteration and is captured by the loop as a fault — the removal IS surfaced
as an error and the loop does not continue. -/
theorem field_removal_raises_keyError :
    (mainIteration c6Provider c6State).error = some (.keyError "Regulator")
    ∧ (mainLoop [c6Provider] c6State).state.exc = some (.keyError "Regulator") :=
  ⟨rfl, rfl⟩

/-- C2: with the iteration counter at 0 (the situation on the first pass
after a fresh `start`), `_main_iteration` dispatches no events at all —
neither for plain subscribed fields nor for special fields, whatever the
provider returns — and for counters at 1 or above the counter's value has no
further influence: events, escaping error and resulting `_current_data` are
identical for any two such counters, so the counter serves solely to
suppress the first pass's notifications. -/
theorem first_iteration_no_events (p : Provider) (s : ListenerState)
    (h0 : s.iteration = 0) :
    (mainIteration p s).events = []
    ∧ ∀ n m : Nat, 1 ≤ n → 1 ≤ m →
        (mainIteration p { s with iteration := n }).events
          = (mainIteration p { s with iteration := m }).events
        ∧ (mainIteration p { s with iteration := n }).error
          = (mainIteration p { s with iteration := m }).error
        ∧ (mainIteration p { s with iteration := n }).state.currentD
          = (mainIteration p { s with iteration := m }).state.currentD := by
  constructor
  · unfold mainIteration
    dsimp only
    rw [h0]
    rcases hpp : processPlain p s.bindings (0 + 1) s.currentD
        s.subscribedU s.currentD with ⟨cur, evs, oe⟩
    have he1 : evs = [] := by
      have h := processPlain_events_firstPass p s.bindings (0 + 1) s.currentD
        (by omega) s.subscribedU s.currentD
      rw [hpp] at h
      exact h
    cases oe with
    | some e => exact he1
    | none =>
      have he2 := processSpecial_events_firstPass p s.bindings (0 + 1) s.currentD
        (by omega) specialFieldsList cur
      show evs ++ (processSpecial p s.bindings (0 + 1) s.currentD
        specialFieldsList cur).2.1 = []
      rw [he1, he2]
      rfl
  · intro n m hn hm
    have hcong : n + 1 > 1 ↔ m + 1 > 1 := by omega
    unfold mainIteration
    dsimp only
    rw [processPlain_iter_congr p s.bindings s.currentD hcong s.subscribedU s.currentD]
    rcases hpp : processPlain p s.bindings (m + 1) s.currentD
        s.subscribedU s.currentD with ⟨cur, evs, oe⟩
    cases oe with
    | some e => exact ⟨rfl, rfl, rfl⟩
    | none =>
      dsimp only
      rw [processSpecial_iter_congr p s.bindings s.currentD hcong specialFieldsList cur]
      exact ⟨rfl, rfl, rfl⟩

/-- Provider fixture for the first-iteration witness. -/
def c2Provider : Provider :=
  { readField := fun _ => .ok (.vNum 1),
    special := fun _ => .ok .vNone,
    controllerList := [] }

/-- C2 witness: a fresh listener's first iteration dispatches nothing, and
counters 1 and 2 produce the same events. -/
theorem first_iteration_no_events_witness :
    (mainIteration c2Provider initState).events = []
    ∧ (mainIteration c2Provider { initState with iteration := 1 }).events
        = (mainIteration c2Provider { initState with iteration := 2 }).events := by
  have h := first_iteration_no_events c2Provider initState rfl
  exact ⟨h.1, (h.2 1 2 (by decide) (by decide)).1⟩

/-- C6 amended: when the provider signals a subscribed plain field no longer
exists AND the field still has an entry in `_current_data`, that entry is
removed entirely, no change event is dispatched for the removal, no error
escapes the iteration, and the polling loop simply continues with the next
scheduled iteration.  (The special-field hypothesis pins the accessors to the
values already in the snapshot so the special pass is quiescent.) -/
theorem field_removal_with_entry_is_silent (p : Provider) (s : ListenerState)
    (f : String) (e : PyError)
    (hsub : s.subscribedU = [f])
    (hnd : keysNodup s.currentD)
    (hmem : (alookup s.currentD f).isSome)
    (hrf : p.readField f = .error e)
    (hve : e.isValueError = true)
    (hfp : f ∉ specialFieldsList.map Prod.fst)
    (hsp : ∀ q ∈ specialFieldsList, p.special q.2 = .ok (pythonGet s.currentD q.1))
    (hra : s.runningAttr = none)
    (hrb : (alookup s.bindings "running").isSome) :
    (mainIteration p s).error = none
    ∧ (mainIteration p s).events = []
    ∧ alookup (mainIteration p s).state.currentD f = none
    ∧ ∀ rest, mainLoop (p :: rest) s = mainLoop rest (mainIteration p s).state := by
  have hpp : processPlain p s.bindings (s.iteration + 1) s.currentD [f] s.currentD
      = (derase s.currentD f, [], none) := by
    unfold processPlain
    rw [hrf]
    dsimp only
    rw [if_pos hve, if_pos hmem]
    rfl
  have hspd : processSpecial p s.bindings (s.iteration + 1) s.currentD
        specialFieldsList (derase s.currentD f)
      = (storeSpecials p specialFieldsList (derase s.currentD f), [], none) := by
    apply processSpecial_no_dispatch
    intro q hq
    exact ⟨pythonGet s.currentD q.1, hsp q hq, fun hc => hc.1 rfl⟩
  have hmi : mainIteration p s
      = ⟨{ s with
           iteration := s.iteration + 1,
           previousD := s.currentD,
           currentD := storeSpecials p specialFieldsList (derase s.currentD f) },
         [], none⟩ := by
    unfold mainIteration
    dsimp only
    rw [hsub, hpp]
    dsimp only
    rw [hspd]
    rfl
  refine ⟨by rw [hmi], by rw [hmi], ?_, ?_⟩
  · rw [hmi]
    show alookup (storeSpecials p specialFieldsList (derase s.currentD f)) f = none
    rw [alookup_storeSpecials_not_mem p specialFieldsList _ f hfp]
    exact alookup_derase_self s.currentD f hnd
  · intro rest
    have hl := mainLoop_cons_ok p rest s _ [] (readRunningVal_id s hra hrb) hmi
    rw [hl, hmi]
    rfl

/-- Provider fixture for the silent-removal witness. -/
def c6wProvider : Provider :=
  { readField := fun f => .error (.valueError f),
    special := fun _ => .ok .vNone,
    controllerList := [] }

/-- A mid-run listener whose snapshot still holds the doomed field. -/
def c6wState : ListenerState :=
  { initState with
    subscribedU := ["Regulator"],
    currentD := [("Regulator", .vNum 1)],
    iteration := 2,
    bindings := [("running", [])] }

/-- C6 amended witness: the concrete silent removal. -/
theorem field_removal_with_entry_is_silent_witness :
    (mainIteration c6wProvider c6wState).error = none
    ∧ (mainIteration c6wProvider c6wState).events = []
    ∧ alookup (mainIteration c6wProvider c6wState).state.currentD "Regulator" = none
    ∧ mainLoop [c6wProvider] c6wState
        = mainLoop [] (mainIteration c6wProvider c6wState).state := by
  have h := field_removal_with_entry_is_silent c6wProvider c6wState "Regulator"
    (.valueError "Regulator") rfl (by decide) (by decide) rfl rfl (by decide)
    (by intro q hq; fin_cases hq <;> rfl) rfl (by decide)
  exact ⟨h.1, h.2.1, h.2.2.1, h.2.2.2 []⟩

/-- C3: a change detected on a plain field whose computed event name has no
entry in the binding registry (no callback was ever registered for it, and no
bare attribute read created the entry) makes `_execute_bindings` raise the
no-binding `RuntimeError`; the fault aborts the iteration before any event
completes, terminates the polling loop whatever providers were still
scheduled, and is afterwards retrievable as the listener's captured fault. -/
theorem dispatch_without_binding_halts_loop (p : Provider) (s : ListenerState)
    (f : String) (v w : Value)
    (hsub : s.subscribedU = [f])
    (hcur : alookup s.currentD f = some w)
    (hit : 1 ≤ s.iteration)
    (hrf : p.readField f = .ok v)
    (hne : v ≠ w)
    (hnb : alookup s.bindings (plainBindingName f) = none)
    (hra : s.runningAttr = none)
    (hrb : (alookup s.bindings "running").isSome) :
    (mainIteration p s).error
        = some (.runtimeError (plainBindingName f))
    ∧ (mainIteration p s).events = []
    ∧ ∀ rest, mainLoop (p :: rest) s
          = ⟨{ (mainIteration p s).state with
               exc := some (.runtimeError (plainBindingName f)) }, []⟩
        ∧ lastError (mainLoop (p :: rest) s).state
          = some (.runtimeError (plainBindingName f)) := by
  have hpg : pythonGet s.currentD f = w := by
    unfold pythonGet
    rw [hcur]
    rfl
  have hguard : v ≠ pythonGet s.currentD f ∧ s.iteration + 1 > 1 :=
    ⟨by rw [hpg]; exact hne, by omega⟩
  have heb : executeBindings s.bindings (plainBindingName f) v w
      = .error (.runtimeError (plainBindingName f)) := by
    unfold executeBindings
    rw [hnb]
  have hpp : processPlain p s.bindings (s.iteration + 1) s.currentD [f] s.currentD
      = (dinsert s.currentD f v, [],
         some (.runtimeError (plainBindingName f))) := by
    unfold processPlain
    rw [hrf]
    dsimp only
    rw [if_pos hguard, hcur]
    dsimp only
    rw [heb]
  have hmi : mainIteration p s
      = ⟨{ s with
           iteration := s.iteration + 1,
           previousD := s.currentD,
           currentD := dinsert s.currentD f v },
         [], some (.runtimeError (plainBindingName f))⟩ := by
    unfold mainIteration
    dsimp only
    rw [hsub, hpp]
  refine ⟨by rw [hmi], by rw [hmi], ?_⟩
  intro rest
  have hloop := mainLoop_cons_err p rest s _ _ _ (readRunningVal_id s hra hrb) hmi
  constructor
  · rw [hloop, hmi]
  · rw [hloop]
    rfl

/-- Provider fixture for the no-binding witness: the field reads 7. -/
def c3Provider : Provider :=
  { readField := fun _ => .ok (.vNum 7),
    special := fun _ => .ok .vNone,
    controllerList := [] }

/-- A mid-run listener with a recorded value 5 for the field and no binding
for its change event. -/
def c3State : ListenerState :=
  { initState with
    subscribedU := ["Regulator"],
    currentD := [("Regulator", .vNum 5)],
    iteration := 4,
    bindings := [("running", [])] }

/-- C3 witness: the concrete no-binding fault, retrieved afterwards. -/
theorem dispatch_without_binding_halts_loop_witness :
    lastError (mainLoop [c3Provider] c3State).state
      = some (.runtimeError "on_regulator_change") := by
  have h := dispatch_without_binding_halts_loop c3Provider c3State "Regulator"
    (.vNum 7) (.vNum 5) rfl rfl (by decide) rfl (by decide) rfl rfl (by decide)
  have h2 := (h.2.2 []).2
  have hstr : plainBindingName "Regulator" = "on_regulator_change" := by
    decide
  rw [hstr] at h2
  exact h2

/-- C7: whenever `_main_iteration` lets any exception escape — an uncaught
provider fault or a raising callback alike — `_main_loop` never re-raises it
into the caller's context: the loop result is an ordinary state in which the
fault is stored in the captured-error slot, the remaining scheduled
iterations are abandoned, and the loop does not restart on its own. -/
theorem worker_fault_captured (p : Provider) (s : ListenerState) (e : PyError)
    (hra : s.runningAttr = none)
    (hrb : (alookup s.bindings "running").isSome)
    (herr : (mainIteration p s).error = some e) :
    ∀ rest, mainLoop (p :: rest) s
        = ⟨{ (mainIteration p s).state with exc := some e },
           (mainIteration p s).events⟩
      ∧ lastError (mainLoop (p :: rest) s).state = some e := by
  intro rest
  rcases hmi : mainIteration p s with ⟨s₂, evs, oe⟩
  rw [hmi] at herr
  have hoe : oe = some e := herr
  subst hoe
  have hloop := mainLoop_cons_err p rest s s₂ evs e (readRunningVal_id s hra hrb) hmi
  constructor
  · rw [hloop]
  · rw [hloop]
    rfl

/-- Provider fixture for the captured-fault witness: the read raises a fault
that `except ValueError` does not catch. -/
def c7Provider : Provider :=
  { readField := fun _ => .error (.otherError "boom"),
    special := fun _ => .ok .vNone,
    controllerList := [] }

/-- A running listener subscribed to one field. -/
def c7State : ListenerState :=
  { initState with
    subscribedU := ["Regulator"],
    bindings := [("running", [])] }

/-- C7 witness: the concrete fault is captured and retrievable. -/
theorem worker_fault_captured_witness :
    lastError (mainLoop [c7Provider] c7State).state = some (.otherError "boom") := by
  have h := worker_fault_captured c7Provider c7State (.otherError "boom")
    rfl (by decide) rfl
  exact (h []).2

/-- C10: a subscribed plain field that is absent from the snapshot when an
iteration with counter already ≥ 1 begins (so it is absent from
`_previous_data` too) and whose read now succeeds trips the dispatch guard —
the fresh value differs from `dict.get`'s `None` — and the old-value fetch
`self._previous_data[field_name]` raises `KeyError` before
`_execute_bindings` is ever entered: no callback runs, and the loop
terminates with the fault captured. -/
theorem late_field_appearance_keyError (p : Provider) (s : ListenerState)
    (f : String) (fs : List String) (v : Value)
    (hsub : s.subscribedU = f :: fs)
    (hcur : alookup s.currentD f = none)
    (hit : 1 ≤ s.iteration)
    (hrf : p.readField f = .ok v)
    (hvn : v ≠ .vNone)
    (hra : s.runningAttr = none)
    (hrb : (alookup s.bindings "running").isSome) :
    (mainIteration p s).error = some (.keyError f)
    ∧ (mainIteration p s).events = []
    ∧ ∀ rest, mainLoop (p :: rest) s
        = ⟨{ (mainIteration p s).state with exc := some (.keyError f) }, []⟩ := by
  have hpg : pythonGet s.currentD f = .vNone := by
    unfold pythonGet
    rw [hcur]
    rfl
  have hguard : v ≠ pythonGet s.currentD f ∧ s.iteration + 1 > 1 :=
    ⟨by rw [hpg]; exact hvn, by omega⟩
  have hpp : processPlain p s.bindings (s.iteration + 1) s.currentD (f :: fs) s.currentD
      = (dinsert s.currentD f v, [], some (.keyError f)) := by
    unfold processPlain
    rw [hrf]
    dsimp only
    rw [if_pos hguard, hcur]
  have hmi : mainIteration p s
      = ⟨{ s with
           iteration := s.iteration + 1,
           previousD := s.currentD,
           currentD := dinsert s.currentD f v },
         [], some (.keyError f)⟩ := by
    unfold mainIteration
    dsimp only
    rw [hsub, hpp]
  refine ⟨by rw [hmi], by rw [hmi], ?_⟩
  intro rest
  have hloop := mainLoop_cons_err p rest s _ _ _ (readRunningVal_id s hra hrb) hmi
  rw [hloop, hmi]

/-- Provider fixture for the late-appearance witness: the field reads 3. -/
def c10Provider : Provider :=
  { readField := fun _ => .ok (.vNum 3),
    special := fun _ => .ok .vNone,
    controllerList := [] }

/-- A listener past its first iteration whose snapshot lacks the field. -/
def c10State : ListenerState :=
  { initState with
    subscribedU := ["Regulator"],
    iteration := 2,
    bindings := [("running", [])] }

/-- C10 witness: the concrete late appearance crashes the loop. -/
theorem late_field_appearance_keyError_witness :
    (mainIteration c10Provider c10State).error = some (.keyError "Regulator")
    ∧ mainLoop [c10Provider] c10State
        = ⟨{ (mainIteration c10Provider c10State).state with
             exc := some (.keyError "Regulator") }, []⟩ := by
  have h := late_field_appearance_keyError c10Provider c10State "Regulator" []
    (.vNum 3) rfl rfl (by decide) rfl (by decide) rfl (by decide)
  exact ⟨h.1, h.2.2 []⟩

/-! ### The five-iteration change-sequence scenario -/

theorem dinsert_lookup_self (d : Dict) (k : String) (v : Value)
    (h : alookup d k = some v) : dinsert d k v = d := by
  induction d with
  | nil => exact Option.noConfusion h
  | cons q rest ih =>
    cases q with
    | mk k₀ v₀ =>
      by_cases hk : k₀ = k
      · simp only [alookup, if_pos hk] at h
        simp only [dinsert, if_pos hk]
        rw [Option.some_inj.mp h]
      · simp only [alookup, if_neg hk] at h
        simp only [dinsert, if_neg hk]
        rw [ih h]

theorem storeSpecials_id (p : Provider) :
    ∀ (sfs : List (String × String)) (cur : Dict),
      (∀ q ∈ sfs, ∃ v, alookup cur q.1 = some v ∧ p.special q.2 = .ok v) →
      storeSpecials p sfs cur = cur := by
  intro sfs
  induction sfs with
  | nil => intro cur _; rfl
  | cons q rest ih =>
    intro cur h
    obtain ⟨v, hl, hok⟩ := h q (List.mem_cons_self q rest)
    unfold storeSpecials
    rw [hok]
    dsimp only
    rw [dinsert_lookup_self _ _ _ hl]
    exact ih _ fun r hr => h r (List.mem_cons_of_mem q hr)

theorem mainIteration_build (p : Provider) (s s' : ListenerState)
    (cur1 cur2 : Dict) (evs1 evs2 : List Event)
    (hpp : processPlain p s.bindings (s.iteration + 1) s.currentD
        s.subscribedU s.currentD = (cur1, evs1, none))
    (hps : processSpecial p s.bindings (s.iteration + 1) s.currentD
        specialFieldsList cur1 = (cur2, evs2, none))
    (hs' : s' = { s with
                  iteration := s.iteration + 1,
                  previousD := s.currentD,
                  currentD := cur2 }) :
    mainIteration p s = ⟨s', evs1 ++ evs2, none⟩ := by
  subst hs'
  unfold mainIteration
  dsimp only
  rw [hpp]
  dsimp only
  rw [hps]

/-- An environment in which the tracked plain field `f` currently reads the
exact value `n` and each special accessor returns a fixed value `g m`. -/
def c1Prov (f : String) (g : String → Value) (n : Int) : Provider :=
  { readField := fun x => if x = f then .ok (.vNum n) else .error (.valueError x),
    special := fun m => .ok (g m),
    controllerList := [] }

/-- The special-field portion of the snapshot in that environment. -/
def c1SpecialDict (g : String → Value) : Dict :=
  specialFieldsList.map fun q => (q.1, g q.2)

/-- The full snapshot after an iteration whose plain reading was `n`. -/
def c1Dict (f : String) (g : String → Value) (n : Int) : Dict :=
  (f, .vNum n) :: c1SpecialDict g

/-- A running listener tracking exactly `f`, with binding registry `bs`,
iteration counter `k` and the two snapshots. -/
def c1MidState (f : String) (bs : Bindings) (k : Nat) (prevD curD : Dict) :
    ListenerState :=
  { bindings := bs, subscribedU := [f], currentD := curD, previousD := prevD,
    exc := none, runningU := true, iteration := k,
    runningAttr := none, subscribedAttr := none }

/-- C1: for any plain field `f` tracked by the poller whose provider reading
over the five iterations after a fresh start is 5, 5, 7, 7, 2 (with the
special accessors steady and callbacks bound — and well-behaved — under
`f`'s change event name), exactly two change events are dispatched across
those iterations: first `(new, old) = (7, 5)`, then `(2, 7)`. -/
theorem change_sequence_two_events (f : String) (g : String → Value)
    (bs : Bindings) (cbs : List Cb)
    (hf : f ∉ specialFieldsList.map Prod.fst)
    (hb : alookup bs (plainBindingName f) = some cbs)
    (hcb : ∀ cb ∈ cbs, ∀ v w, cb v w = none)
    (hrb : (alookup bs "running").isSome) :
    (mainLoop
        [c1Prov f g 5, c1Prov f g 5, c1Prov f g 7, c1Prov f g 7, c1Prov f g 2]
        (c1MidState f bs 0 [] [])).events
      = [⟨plainBindingName f, .vNum 7, .vNum 5⟩,
         ⟨plainBindingName f, .vNum 2, .vNum 7⟩] := by
  -- elementary facts about the environment and the snapshot shape
  have hrff : ∀ n : Int, (c1Prov f g n).readField f = .ok (.vNum n) := by
    intro n
    simp [c1Prov]
  have ha1 : ∀ n : Int, alookup (c1Dict f g n) f = some (.vNum n) := by
    intro n
    simp [c1Dict, alookup]
  have hpg : ∀ n : Int, pythonGet (c1Dict f g n) f = .vNum n := by
    intro n
    unfold pythonGet
    rw [ha1 n]
    rfl
  have ha2 : ∀ n m : Int, dinsert (c1Dict f g n) f (.vNum m) = c1Dict f g m := by
    intro n m
    simp [c1Dict, dinsert]
  have hfl : ∀ q ∈ specialFieldsList, ¬f = q.1 := by
    intro q hq hfe
    exact hf (by rw [hfe]; exact List.mem_map_of_mem Prod.fst hq)
  have ha3 : ∀ n : Int, ∀ q ∈ specialFieldsList,
      alookup (c1Dict f g n) q.1 = some (g q.2) := by
    intro n q hq
    have hne := hfl q hq
    fin_cases hq <;> simp [c1Dict, c1SpecialDict, specialFieldsList, alookup, hne]
  have hpg3 : ∀ n : Int, ∀ q ∈ specialFieldsList,
      pythonGet (c1Dict f g n) q.1 = g q.2 := by
    intro n q hq
    unfold pythonGet
    rw [ha3 n q hq]
    rfl
  -- the special pass on the very first iteration
  have hSfirst : processSpecial (c1Prov f g 5) bs 1 [] specialFieldsList
      [(f, .vNum 5)] = (c1Dict f g 5, [], none) := by
    rw [processSpecial_no_dispatch (c1Prov f g 5) bs 1 [] specialFieldsList
      [(f, .vNum 5)] fun q hq => ⟨g q.2, rfl, fun hc => absurd hc.2 (by decide)⟩]
    have h1 := hfl ("!Coordinates", "coordinates") (by decide)
    have h2 := hfl ("!FuelLevel", "fuel_level") (by decide)
    have h3 := hfl ("!Gradient", "gradient") (by decide)
    have h4 := hfl ("!Heading", "heading") (by decide)
    have h5 := hfl ("!IsInTunnel", "in_tunnel") (by decide)
    have h6 := hfl ("!LocoName", "loco_name") (by decide)
    have h7 := hfl ("!Time", "current_time") (by decide)
    have hB1 : storeSpecials (c1Prov f g 5) specialFieldsList [(f, .vNum 5)]
        = c1Dict f g 5 := by
      simp [storeSpecials, specialFieldsList, c1Prov, c1Dict, c1SpecialDict,
        dinsert, h1, h2, h3, h4, h5, h6, h7]
    rw [hB1]
  -- the special pass on every later iteration is quiescent
  have hSsteady : ∀ (k : Nat) (pm n c : Int),
      processSpecial (c1Prov f g pm) bs k (c1Dict f g n) specialFieldsList
        (c1Dict f g c) = (c1Dict f g c, [], none) := by
    intro k pm n c
    rw [processSpecial_no_dispatch (c1Prov f g pm) bs k (c1Dict f g n)
      specialFieldsList (c1Dict f g c)
      fun q hq => ⟨g q.2, rfl, fun hc => hc.1 (by rw [hpg3 n q hq])⟩]
    rw [storeSpecials_id (c1Prov f g pm) specialFieldsList (c1Dict f g c)
      fun q hq => ⟨g q.2, ha3 c q hq, rfl⟩]
  -- the plain pass, per situation
  have hPfirst : processPlain (c1Prov f g 5) bs 1 [] [f] []
      = ([(f, .vNum 5)], [], none) := by
    unfold processPlain
    rw [hrff 5]
    dsimp only
    rw [if_neg fun hc => absurd hc.2 (by decide)]
    rfl
  have hPsame : ∀ (k : Nat) (n : Int), k > 1 →
      processPlain (c1Prov f g n) bs k (c1Dict f g n) [f] (c1Dict f g n)
        = (c1Dict f g n, [], none) := by
    intro k n hk
    unfold processPlain
    rw [hrff n]
    dsimp only
    rw [if_neg fun hc => hc.1 (by rw [hpg n])]
    rw [ha2 n n]
    rfl
  have hPchg : ∀ (k : Nat) (n m : Int), k > 1 → Value.vNum m ≠ Value.vNum n →
      processPlain (c1Prov f g m) bs k (c1Dict f g n) [f] (c1Dict f g n)
        = (c1Dict f g m, [⟨plainBindingName f, .vNum m, .vNum n⟩], none) := by
    intro k n m hk hne
    have heb : executeBindings bs (plainBindingName f) (.vNum m) (.vNum n)
        = .ok () := by
      unfold executeBindings
      rw [hb]
      exact runCbs_ok cbs _ _ fun cb hc => hcb cb hc _ _
    unfold processPlain
    rw [hrff m]
    dsimp only
    rw [if_pos ⟨by rw [hpg n]; exact hne, hk⟩, ha1 n]
    dsimp only
    rw [heb]
    dsimp only
    rw [ha2 n m]
    have hnil : processPlain (c1Prov f g m) bs k (c1Dict f g n) [] (c1Dict f g m)
        = (c1Dict f g m, [], none) := rfl
    rw [hnil]
  -- the five iterations
  have h1 : mainIteration (c1Prov f g 5) (c1MidState f bs 0 [] [])
      = ⟨c1MidState f bs 1 [] (c1Dict f g 5), [] ++ [], none⟩ :=
    mainIteration_build _ _ _ _ _ _ _ hPfirst hSfirst rfl
  have h2 : mainIteration (c1Prov f g 5) (c1MidState f bs 1 [] (c1Dict f g 5))
      = ⟨c1MidState f bs 2 (c1Dict f g 5) (c1Dict f g 5), [] ++ [], none⟩ :=
    mainIteration_build _ _ _ _ _ _ _ (hPsame 2 5 (by decide)) (hSsteady 2 5 5 5) rfl
  have h3 : mainIteration (c1Prov f g 7)
        (c1MidState f bs 2 (c1Dict f g 5) (c1Dict f g 5))
      = ⟨c1MidState f bs 3 (c1Dict f g 5) (c1Dict f g 7),
         [⟨plainBindingName f, .vNum 7, .vNum 5⟩] ++ [], none⟩ :=
    mainIteration_build _ _ _ _ _ _ _ (hPchg 3 5 7 (by decide) (by decide))
      (hSsteady 3 7 5 7) rfl
  have h4 : mainIteration (c1Prov f g 7)
        (c1MidState f bs 3 (c1Dict f g 5) (c1Dict f g 7))
      = ⟨c1MidState f bs 4 (c1Dict f g 7) (c1Dict f g 7), [] ++ [], none⟩ :=
    mainIteration_build _ _ _ _ _ _ _ (hPsame 4 7 (by decide)) (hSsteady 4 7 7 7) rfl
  have h5 : mainIteration (c1Prov f g 2)
        (c1MidState f bs 4 (c1Dict f g 7) (c1Dict f g 7))
      = ⟨c1MidState f bs 5 (c1Dict f g 7) (c1Dict f g 2),
         [⟨plainBindingName f, .vNum 2, .vNum 7⟩] ++ [], none⟩ :=
    mainIteration_build _ _ _ _ _ _ _ (hPchg 5 7 2 (by decide) (by decide))
      (hSsteady 5 2 7 2) rfl
  -- running checks
  have hr0 := readRunningVal_id (c1MidState f bs 0 [] []) rfl hrb
  have hr1 := readRunningVal_id (c1MidState f bs 1 [] (c1Dict f g 5)) rfl hrb
  have hr2 := readRunningVal_id (c1MidState f bs 2 (c1Dict f g 5) (c1Dict f g 5)) rfl hrb
  have hr3 := readRunningVal_id (c1MidState f bs 3 (c1Dict f g 5) (c1Dict f g 7)) rfl hrb
  have hr4 := readRunningVal_id (c1MidState f bs 4 (c1Dict f g 7) (c1Dict f g 7)) rfl hrb
  -- assemble the loop
  rw [mainLoop_cons_ok _ _ _ _ _ hr0 h1]
  dsimp only
  rw [mainLoop_cons_ok _ _ _ _ _ hr1 h2]
  dsimp only
  rw [mainLoop_cons_ok _ _ _ _ _ hr2 h3]
  dsimp only
  rw [mainLoop_cons_ok _ _ _ _ _ hr3 h4]
  dsimp only
  rw [mainLoop_cons_ok _ _ _ _ _ hr4 h5]
  simp [mainLoop]

/-- Binding registry for the change-sequence witness: a `running` entry (the
loop's attribute read created it) and an empty callback list registered for
the field's change event. -/
def c1wBindings : Bindings :=
  [("running", []), (plainBindingName "Regulator", [])]

/-- C1 witness: the concrete run for the field `Regulator`. -/
theorem change_sequence_two_events_witness :
    (mainLoop
        [c1Prov "Regulator" (fun _ => .vNone) 5,
         c1Prov "Regulator" (fun _ => .vNone) 5,
         c1Prov "Regulator" (fun _ => .vNone) 7,
         c1Prov "Regulator" (fun _ => .vNone) 7,
         c1Prov "Regulator" (fun _ => .vNone) 2]
        (c1MidState "Regulator" c1wBindings 0 [] [])).events
      = [⟨"on_regulator_change", .vNum 7, .vNum 5⟩,
         ⟨"on_regulator_change", .vNum 2, .vNum 7⟩] := by
  have hstr : plainBindingName "Regulator" = "on_regulator_change" := by decide
  have h := change_sequence_two_events "Regulator" (fun _ => .vNone) c1wBindings []
    (by decide) (by simp [c1wBindings, alookup, hstr])
    (by intro cb hc; exact absurd hc (List.not_mem_nil cb)) (by decide)
  rw [hstr] at h
  exact h
